import Mathlib

/- Verification of the BackgroundAnnotator image-composition and
wallpaper-installation pipeline (services/background.py and
services/explorer.py), as a shallow embedding.  Pure Python functions become
Lean functions; the PIL raster type becomes the Canvas structure; fallible
code returns Except; the platform, the OS wallpaper call's outcome, the
filesystem and the foreign resampling/glyph rasterizers of PIL are explicit
parameters.  All real arithmetic that Python performs in floating point
(the thumbnail aspect-ratio rounding) is modelled exactly over the
integers. -/

set_option maxHeartbeats 1000000

/-- An RGBA pixel value.  PIL channels are 8-bit, but no claim depends on
channel overflow, so plain naturals suffice. -/
structure Color where
  r : ℕ
  g : ℕ
  b : ℕ
  a : ℕ
  deriving DecidableEq

/-- An in-memory raster image (PIL Image.Image): width, height, color mode
and a pixel buffer.  The pixel function is total; only coordinates below
width/height are meaningful. -/
structure Canvas where
  width : ℕ
  height : ℕ
  mode : String
  pix : ℕ × ℕ → Color

/-- The fixed brand fill color of create_default_background,
hex 1E64C8 = (30, 100, 200). -/
def brandColor : Color := ⟨30, 100, 200, 255⟩

/-- Image.new with a mode of RGB, the given size and a fill color. -/
def Canvas.new (size : ℕ × ℕ) (c : Color) : Canvas :=
  ⟨size.1, size.2, "RGB", fun _ => c⟩

/-- Image.copy: an independent image holding the same value. -/
def Canvas.copy (c : Canvas) : Canvas := c

/-- Image.convert to mode RGB: a fresh image with the alpha channel dropped
(made opaque); the receiver is not mutated. -/
def Canvas.convertRGB (c : Canvas) : Canvas :=
  ⟨c.width, c.height, "RGB", fun p => { c.pix p with a := 255 }⟩

/-- Size rounding of PIL Image.thumbnail in the branch where the requested
height binds: x = round_aspect(ty * aspect) with key n = abs(aspect - n / ty),
written over exact integers.  With num = ty * w the candidates are the floor
and the ceiling of num / h, and comparing the keys over the common
denominator h * ty reduces to comparing num - f * h with c * h - num; on a
tie Python's min keeps the floor.  The result is clamped to at least 1. -/
def thumbWidthIf (w h ty : ℕ) : ℕ :=
  let num := ty * w
  let f := num / h
  let c := (num + h - 1) / h
  max (if num - f * h ≤ c * h - num then f else c) 1

/-- Size rounding of PIL Image.thumbnail in the branch where the requested
width binds: y = round_aspect(tx / aspect) with key n = 0 when n = 0 and
abs(aspect - tx / n) otherwise, over exact integers.  With num = tx * h the
candidates are the floor and the ceiling of num / w; the keys have different
denominators h * f and h * c, so the comparison cross-multiplies to
(num - w * f) * c against (w * c - num) * f, and a zero floor always wins
because its key is 0.  The result is clamped to at least 1. -/
def thumbHeightElse (w h tx : ℕ) : ℕ :=
  let num := tx * h
  let f := num / w
  let c := (num + w - 1) / w
  max (if f = 0 then f else if (num - w * f) * c ≤ (w * c - num) * f then f else c) 1

/-- The output size of PIL Image.thumbnail(size = (tx, ty)) on a w by h
image: unchanged when the image already fits inside the requested box,
otherwise scaled down (never up) preserving the aspect ratio, the
non-binding dimension rounded to whichever of floor and ceiling best
preserves the ratio, and never below 1. -/
def thumbnailSize (w h tx ty : ℕ) : ℕ × ℕ :=
  if w ≤ tx ∧ h ≤ ty then (w, h)
  else if ty * w ≤ tx * h then (thumbWidthIf w h ty, ty)
  else (tx, thumbHeightElse w h tx)

/-- Image.thumbnail(size, resample = LANCZOS): in-place in Python, modelled
as a function returning the shrunken image.  The resample parameter
abstracts LANCZOS pixel resampling, which lives inside PIL; the output size
is computed exactly.  A no-op when the computed size equals the current
size. -/
def Canvas.thumbnailFn
    (resample : (ℕ × ℕ → Color) → ℕ × ℕ → ℕ × ℕ → (ℕ × ℕ → Color))
    (c : Canvas) (target : ℕ × ℕ) : Canvas :=
  let s := thumbnailSize c.width c.height target.1 target.2
  if s = (c.width, c.height) then c
  else ⟨s.1, s.2, c.mode, resample c.pix (c.width, c.height) s⟩

/-- Image.resize(target, resample = LANCZOS): a new image of exactly the
target size; the receiver is not mutated. -/
def Canvas.resizeFn
    (resample : (ℕ × ℕ → Color) → ℕ × ℕ → ℕ × ℕ → (ℕ × ℕ → Color))
    (c : Canvas) (target : ℕ × ℕ) : Canvas :=
  ⟨target.1, target.2, c.mode, resample c.pix (c.width, c.height) target⟩

/-- resize_image from services/background.py.  The first component is the
returned image.  Because Python passes the image by object reference, the
second component records the value of the caller's image object after the
call: Image.thumbnail mutates its receiver (so with in_place the caller sees
the shrunken image), Image.resize does not, and without in_place the
function operates on a copy. -/
def resize_image
    (resample : (ℕ × ℕ → Color) → ℕ × ℕ → ℕ × ℕ → (ℕ × ℕ → Color))
    (image : Canvas) (target_size : ℕ × ℕ)
    (keepAspect : Bool) (inPlace : Bool) : Canvas × Canvas :=
  let work := if inPlace then image else image.copy
  if keepAspect then
    let t := Canvas.thumbnailFn resample work target_size
    (t, if inPlace then t else image)
  else
    (Canvas.resizeFn resample work target_size, image)

/-- Modelled from the spec: the glyph rasterizer behind PIL
ImageDraw.Draw(image).text (the brand font asset and PIL's renderer are
outside the source tree).  Glyph pixel coverage is the abstract overlay
argument; an empty text has no glyphs and changes no pixel, which the spec
states directly. -/
def drawText
    (overlay : String → ℕ × ℕ → ℕ → String → ℕ × ℕ → Color → Option Color)
    (c : Canvas) (xy : ℕ × ℕ) (text : String) (fontSize : ℕ)
    (fill : String) : Canvas :=
  if text = "" then c
  else
    { c with pix := fun p => (overlay text xy fontSize fill p (c.pix p)).getD (c.pix p) }

/-- add_text_to_image from services/background.py: loads the brand font,
copies the image, and draws the text onto the copy.  The first component is
the returned image; the second is the caller's image object after the call
(never mutated, since the drawing targets the copy). -/
def add_text_to_image
    (overlay : String → ℕ × ℕ → ℕ → String → ℕ × ℕ → Color → Option Color)
    (image : Canvas) (text : String) (text_position : ℕ × ℕ)
    (text_size : ℕ) (text_color : String) : Canvas × Canvas :=
  (drawText overlay image.copy text_position text text_size text_color, image)

/-- Per-pixel blend of Image.paste with an RGBA mask: the mask's alpha
weighs the pasted pixel against the base pixel, over exact integers (PIL's
fixed-point rounding differs at most in the lowest bit and no claim
inspects blended values). -/
def blendPx (base im : Color) (t : ℕ) : Color :=
  ⟨(im.r * t + base.r * (255 - t)) / 255,
   (im.g * t + base.g * (255 - t)) / 255,
   (im.b * t + base.b * (255 - t)) / 255,
   base.a⟩

/-- Image.paste(im, box, mask): writes im into the base at the integer
offset box (possibly negative, in which case PIL clips), blending through
the mask's alpha channel; every pixel outside the pasted rectangle is left
untouched. -/
def Canvas.paste (base im : Canvas) (box : ℤ × ℤ) (mask : Canvas) : Canvas :=
  { base with pix := fun p =>
      let q : ℕ × ℕ := (((p.1 : ℤ) - box.1).toNat, ((p.2 : ℤ) - box.2).toNat)
      if 0 ≤ (p.1 : ℤ) - box.1 ∧ (p.1 : ℤ) - box.1 < (im.width : ℤ) ∧
          0 ≤ (p.2 : ℤ) - box.2 ∧ (p.2 : ℤ) - box.2 < (im.height : ℤ) then
        blendPx (base.pix p) (im.pix q) (mask.pix q).a
      else base.pix p }

/-- The thumbnail target that create_default_background passes to
logo.thumbnail: (ugent_logo_width, int(ugent_logo_width * height / width)
+ 1), where int truncates, which on naturals is floor division. -/
def defaultLogoTarget (w0 h0 lw : ℕ) : ℕ × ℕ := (lw, lw * h0 / w0 + 1)

/-- The dimensions the logo actually has after the thumbnail call inside
create_default_background. -/
def defaultLogoSize (w0 h0 lw : ℕ) : ℕ × ℕ :=
  thumbnailSize w0 h0 (defaultLogoTarget w0 h0 lw).1 (defaultLogoTarget w0 h0 lw).2

/-- create_default_background from services/background.py: a brand-colored
canvas of the screen size, with the logo shrunk by logo.thumbnail and
pasted at box = (width - ugent_logo_width - ugent_logo_margin,
ugent_logo_margin) using the logo itself as the alpha mask.  Modelled from
the spec for the parts outside the source tree: the logo asset's pixel data
and dimensions are not in src, so the opened logo image is a parameter, as
is LANCZOS resampling. -/
def create_default_background
    (resample : (ℕ × ℕ → Color) → ℕ × ℕ → ℕ × ℕ → (ℕ × ℕ → Color))
    (logo : Canvas) (screen_size : ℕ × ℕ)
    (ugent_logo_margin : ℕ) (ugent_logo_width : ℕ) : Canvas :=
  let image := Canvas.new screen_size brandColor
  let logo2 := Canvas.thumbnailFn resample logo
    (defaultLogoTarget logo.width logo.height ugent_logo_width)
  image.paste logo2
    ((screen_size.1 : ℤ) - ugent_logo_width - ugent_logo_margin,
     (ugent_logo_margin : ℤ))
    logo2

/-- The failure the spec calls AssetNotFound. -/
inductive AssetError where
  | assetNotFound
  deriving DecidableEq

/-- get_asset from services/explorer.py.  Python exceptions are modelled by
Except; the base directory depends on whether the program runs frozen
(PyInstaller, base sys._MEIPASS) or from source (the package directory).
The source computes base / relative_path and returns it directly. -/
def get_asset (frozen : Bool) (meipassDir : String) (sourceBase : String)
    (relative_path : String) : Except AssetError String :=
  if frozen then Except.ok (meipassDir ++ "/" ++ relative_path)
  else Except.ok (sourceBase ++ "/" ++ relative_path)

/-- The source argument of set_background: a PIL image or a path. -/
inductive WallpaperSource where
  | fromCanvas (img : Canvas)
  | fromPath (p : String)

/-- The failures of set_background, named as in the spec's taxonomy:
NotImplementedError, FileNotFoundError and RuntimeError in the source. -/
inductive SBError where
  | unsupportedPlatform
  | fileNotFound
  | installFailed
  deriving DecidableEq

/-- Observable outcome of one set_background call: the returned path or the
raised error, the filesystem afterwards, how many OS wallpaper calls and
unlink calls ran, whether a temporary file was created, the image value
written to the temporary file, and the value of the caller's canvas object
after the call (for a canvas source). -/
structure SBResult where
  outcome : Except SBError String
  fs : List String
  osCalls : ℕ
  unlinkCalls : ℕ
  tmpCreated : Bool
  written : Option Canvas
  canvasAfter : Option Canvas

/-- set_background from services/background.py.  Parameters model the
environment: plat is platform.system(), osOk the success of
SystemParametersInfoW, tmpName the fresh name handed out by
NamedTemporaryFile, unlinkOk whether Path.unlink succeeds, resolvePath the
expanduser-and-resolve normalization, fs the set of existing files.
Faithful to the source's control flow: the platform test comes first; a
canvas source is converted to RGB on a fresh image and saved to the temp
file; the OS call failure raises before the unlink, so the unlink only runs
on the success path, where its own failure is swallowed. -/
def set_background (plat : String) (osOk : Bool) (tmpName : String)
    (unlinkOk : Bool) (resolvePath : String → String) (fs : List String)
    (source : WallpaperSource) : SBResult :=
  if plat ≠ "Windows" then
    { outcome := Except.error SBError.unsupportedPlatform, fs := fs,
      osCalls := 0, unlinkCalls := 0, tmpCreated := false, written := none,
      canvasAfter :=
        match source with
        | WallpaperSource.fromCanvas img => some img
        | WallpaperSource.fromPath _ => none }
  else
    match source with
    | WallpaperSource.fromCanvas img =>
      let img2 := img.convertRGB
      let fs1 := tmpName :: fs
      if osOk then
        let fs2 := if unlinkOk then fs1.erase tmpName else fs1
        { outcome := Except.ok tmpName, fs := fs2, osCalls := 1,
          unlinkCalls := 1, tmpCreated := true, written := some img2,
          canvasAfter := some img }
      else
        { outcome := Except.error SBError.installFailed, fs := fs1,
          osCalls := 1, unlinkCalls := 0, tmpCreated := true,
          written := some img2, canvasAfter := some img }
    | WallpaperSource.fromPath p =>
      let rp := resolvePath p
      if rp ∈ fs then
        if osOk then
          { outcome := Except.ok rp, fs := fs, osCalls := 1,
            unlinkCalls := 0, tmpCreated := false, written := none,
            canvasAfter := none }
        else
          { outcome := Except.error SBError.installFailed, fs := fs,
            osCalls := 1, unlinkCalls := 0, tmpCreated := false,
            written := none, canvasAfter := none }
      else
        { outcome := Except.error SBError.fileNotFound, fs := fs,
          osCalls := 0, unlinkCalls := 0, tmpCreated := false,
          written := none, canvasAfter := none }

/-- save_image from services/background.py: image.save(path); the canvas is
not mutated, so the saved value is the canvas itself. -/
def save_image (image : Canvas) (path : String) : String × Canvas :=
  (path, image)

/-- A resampler that keeps the old pixel function; used to instantiate the
abstract LANCZOS parameter in concrete witnesses. -/
def idResample : (ℕ × ℕ → Color) → ℕ × ℕ → ℕ × ℕ → (ℕ × ℕ → Color) :=
  fun pix _ _ => pix

/-- A small concrete canvas for witnesses. -/
def testCanvas : Canvas := ⟨4, 3, "RGB", fun _ => brandColor⟩

/-- A small concrete logo for witnesses. -/
def testLogo : Canvas := ⟨2, 2, "RGBA", fun _ => ⟨255, 255, 255, 255⟩⟩

/-- A 300 by 100 logo exhibiting the floor-rounding of the thumbnail
height. -/
def cexLogo : Canvas := ⟨300, 100, "RGBA", fun _ => ⟨255, 255, 255, 255⟩⟩

/-- Division bound: a is below the next multiple of b. -/
theorem lt_div_succ_mul (a b : ℕ) (hb : 0 < b) : a < (a / b + 1) * b := by
  have h1 := Nat.div_add_mod a b
  have h2 := Nat.mod_lt a hb
  calc a = b * (a / b) + a % b := h1.symm
    _ < b * (a / b) + b := Nat.add_lt_add_left h2 _
    _ = (a / b + 1) * b := by ring

/-- Ceiling bound: a is at most the ceiling of a over b times b, with the
ceiling written as (a + b - 1) / b. -/
theorem le_ceil_div_mul (a b : ℕ) (hb : 0 < b) : a ≤ ((a + b - 1) / b) * b := by
  have h3 : a + b - 1 < ((a + b - 1) / b + 1) * b := lt_div_succ_mul (a + b - 1) b hb
  have h4 : ((a + b - 1) / b + 1) * b = ((a + b - 1) / b) * b + b := by ring
  rw [h4] at h3
  generalize hG : ((a + b - 1) / b) * b = G at h3 ⊢
  omega

/-- The value picked by PIL round_aspect (either clamped floor or clamped
ceiling of num / d) is positive and within one of the exact quotient:
v * d lies strictly within d of num on both sides. -/
theorem roundAspect_bounds (num d v : ℕ) (hd : 0 < d) (hnum : 0 < num)
    (hv : v = max (num / d) 1 ∨ v = max ((num + d - 1) / d) 1) :
    0 < v ∧ v * d < num + d ∧ num < v * d + d := by
  rcases hv with hv | hv
  · rcases Nat.eq_zero_or_pos (num / d) with hf | hf
    · have hlt : num < d := by
        by_contra hge
        push_neg at hge
        have h1 : 1 ≤ num / d := (Nat.one_le_div_iff hd).2 hge
        rw [hf] at h1
        exact absurd h1 (by decide)
      have hvd : v = 1 := by rw [hv, hf]; decide
      subst hvd
      refine ⟨Nat.one_pos, ?_, ?_⟩
      · rw [one_mul]; omega
      · rw [one_mul]; omega
    · have hvd : v = num / d := by rw [hv]; exact max_eq_left hf
      have h1 : num / d * d ≤ num := Nat.div_mul_le_self num d
      have h2 : num < (num / d + 1) * d := lt_div_succ_mul num d hd
      have h2e : (num / d + 1) * d = num / d * d + d := by ring
      rw [h2e] at h2
      subst hvd
      refine ⟨hf, ?_, h2⟩
      generalize hG : num / d * d = G at h1 ⊢
      omega
  · have hc1 : 1 ≤ (num + d - 1) / d := by
      have hdn : d ≤ num + d - 1 := by omega
      exact (Nat.one_le_div_iff hd).2 hdn
    have hvd : v = (num + d - 1) / d := by rw [hv]; exact max_eq_left hc1
    have h1 : ((num + d - 1) / d) * d ≤ num + d - 1 := Nat.div_mul_le_self _ _
    have h2 : num ≤ ((num + d - 1) / d) * d := le_ceil_div_mul num d hd
    subst hvd
    refine ⟨hc1, ?_, ?_⟩
    · generalize hG : ((num + d - 1) / d) * d = G at h1 ⊢
      omega
    · generalize hG : ((num + d - 1) / d) * d = G at h2 ⊢
      omega

/-- The value picked by PIL round_aspect never exceeds X when the exact
quotient num / d is at most X. -/
theorem roundAspect_le (num d X v : ℕ) (hd : 0 < d) (hnum : 0 < num)
    (hX : num ≤ X * d)
    (hv : v = max (num / d) 1 ∨ v = max ((num + d - 1) / d) 1) : v ≤ X := by
  have hX1 : 1 ≤ X := by
    rcases Nat.eq_zero_or_pos X with h0 | h1
    · subst h0; rw [zero_mul] at hX; omega
    · exact h1
  rcases hv with hv | hv
  · have hfle : num / d ≤ X := by
      have h1 : num / d ≤ X * d / d := Nat.div_le_div_right hX
      rw [mul_comm X d, Nat.mul_div_cancel_left X hd] at h1
      exact h1
    rw [hv]; exact max_le hfle hX1
  · have hcle : (num + d - 1) / d ≤ X := by
      have h1 : ((num + d - 1) / d) * d ≤ num + d - 1 := Nat.div_mul_le_self _ _
      have h3 : ((num + d - 1) / d) * d < (X + 1) * d := by
        rw [show (X + 1) * d = X * d + d from by ring]
        generalize hG : ((num + d - 1) / d) * d = G at h1 ⊢
        generalize hA : X * d = A at hX ⊢
        omega
      have h4 : (num + d - 1) / d < X + 1 := lt_of_mul_lt_mul_right h3 (Nat.zero_le d)
      exact Nat.lt_succ_iff.1 h4
    rw [hv]; exact max_le hcle hX1

/-- thumbWidthIf picks either the clamped floor or the clamped ceiling of
(ty * w) / h. -/
theorem thumbWidthIf_cases (w h ty : ℕ) :
    thumbWidthIf w h ty = max (ty * w / h) 1 ∨
    thumbWidthIf w h ty = max ((ty * w + h - 1) / h) 1 := by
  simp only [thumbWidthIf]
  split
  · left; rfl
  · right; rfl

/-- thumbHeightElse picks either the clamped floor or the clamped ceiling of
(tx * h) / w. -/
theorem thumbHeightElse_cases (w h tx : ℕ) :
    thumbHeightElse w h tx = max (tx * h / w) 1 ∨
    thumbHeightElse w h tx = max ((tx * h + w - 1) / w) 1 := by
  simp only [thumbHeightElse]
  split
  · left; rfl
  · split
    · left; rfl
    · right; rfl

/-- Two-sided strict bounds give a natAbs bound on the difference. -/
theorem natAbs_sub_lt (x y d : ℕ) (h1 : x < y + d) (h2 : y < x + d) :
    ((x : ℤ) - (y : ℤ)).natAbs < d := by omega

/-- Size contract of PIL Image.thumbnail: for positive source and target
dimensions the output dimensions are positive, never exceed the source, and
the output aspect ratio matches the source within one pixel of rounding, in
cross-multiplied form. -/
theorem thumbnailSize_spec (w h tx ty : ℕ) (hw : 0 < w) (hh : 0 < h)
    (htx : 0 < tx) (hty : 0 < ty) :
    0 < (thumbnailSize w h tx ty).1 ∧ 0 < (thumbnailSize w h tx ty).2 ∧
    (thumbnailSize w h tx ty).1 ≤ w ∧ (thumbnailSize w h tx ty).2 ≤ h ∧
    (((thumbnailSize w h tx ty).1 * h : ℤ) -
      ((thumbnailSize w h tx ty).2 * w : ℤ)).natAbs < max w h := by
  unfold thumbnailSize
  by_cases h1 : w ≤ tx ∧ h ≤ ty
  · rw [if_pos h1]
    refine ⟨hw, hh, le_refl w, le_refl h, ?_⟩
    have he : ((w : ℤ) * h - (h : ℤ) * w) = 0 := by ring
    simpa [he] using lt_of_lt_of_le hw (le_max_left w h)
  · rw [if_neg h1]
    by_cases h2 : ty * w ≤ tx * h
    · rw [if_pos h2]
      have hty_le : ty ≤ h := by
        by_contra hgt
        push_neg at hgt
        have htx_lt : tx < w := by
          by_contra hge
          push_neg at hge
          exact h1 ⟨hge, le_of_lt hgt⟩
        have c1 : (h + 1) * w ≤ ty * w := mul_le_mul_right' (by omega) w
        have c2 : tx * h ≤ (w - 1) * h := mul_le_mul_right' (by omega) h
        have key : w * h + w ≤ w * h - h := by
          calc w * h + w = (h + 1) * w := by ring
            _ ≤ ty * w := c1
            _ ≤ tx * h := h2
            _ ≤ (w - 1) * h := c2
            _ = w * h - h := by rw [Nat.sub_mul, one_mul]
        generalize hA : w * h = A at key
        omega
      have hnum : 0 < ty * w := Nat.mul_pos hty hw
      have hX : ty * w ≤ w * h := by
        calc ty * w ≤ h * w := mul_le_mul_right' hty_le w
          _ = w * h := mul_comm h w
      obtain ⟨hp, hb1, hb2⟩ :=
        roundAspect_bounds (ty * w) h (thumbWidthIf w h ty) hh hnum
          (thumbWidthIf_cases w h ty)
      have hle : thumbWidthIf w h ty ≤ w :=
        roundAspect_le (ty * w) h w (thumbWidthIf w h ty) hh hnum hX
          (thumbWidthIf_cases w h ty)
      refine ⟨hp, hty, hle, hty_le, ?_⟩
      have habs := natAbs_sub_lt (thumbWidthIf w h ty * h) (ty * w) h hb1 hb2
      push_cast at habs
      exact lt_of_lt_of_le habs (le_max_right w h)
    · rw [if_neg h2]
      push_neg at h2
      have htx_le : tx ≤ w := by
        by_contra hgt
        push_neg at hgt
        have hty_lt : ty < h := by
          by_contra hge
          push_neg at hge
          exact h1 ⟨le_of_lt hgt, hge⟩
        have c1 : (w + 1) * h ≤ tx * h := mul_le_mul_right' (by omega) h
        have c2 : ty * w ≤ (h - 1) * w := mul_le_mul_right' (by omega) w
        have key : w * h + h ≤ w * h - w := by
          calc w * h + h = (w + 1) * h := by ring
            _ ≤ tx * h := c1
            _ ≤ ty * w := le_of_lt h2
            _ ≤ (h - 1) * w := c2
            _ = w * h - w := by rw [Nat.sub_mul, one_mul, mul_comm h w]
        generalize hA : w * h = A at key
        omega
      have hnum : 0 < tx * h := Nat.mul_pos htx hh
      have hX : tx * h ≤ h * w := by
        calc tx * h ≤ w * h := mul_le_mul_right' htx_le h
          _ = h * w := mul_comm w h
      obtain ⟨hp, hb1, hb2⟩ :=
        roundAspect_bounds (tx * h) w (thumbHeightElse w h tx) hw hnum
          (thumbHeightElse_cases w h tx)
      have hle : thumbHeightElse w h tx ≤ h :=
        roundAspect_le (tx * h) w h (thumbHeightElse w h tx) hw hnum hX
          (thumbHeightElse_cases w h tx)
      refine ⟨htx, hp, htx_le, hle, ?_⟩
      have habs := natAbs_sub_lt (tx * h) (thumbHeightElse w h tx * w) w hb2 hb1
      push_cast at habs
      exact lt_of_lt_of_le habs (le_max_left w h)

/-- The width of a thumbnail result is the computed thumbnail width. -/
theorem thumbnailFn_width
    (resample : (ℕ × ℕ → Color) → ℕ × ℕ → ℕ × ℕ → (ℕ × ℕ → Color))
    (c : Canvas) (t : ℕ × ℕ) :
    (Canvas.thumbnailFn resample c t).width =
      (thumbnailSize c.width c.height t.1 t.2).1 := by
  simp only [Canvas.thumbnailFn]
  by_cases hs : thumbnailSize c.width c.height t.1 t.2 = (c.width, c.height)
  · rw [if_pos hs, hs]
  · rw [if_neg hs]

/-- The height of a thumbnail result is the computed thumbnail height. -/
theorem thumbnailFn_height
    (resample : (ℕ × ℕ → Color) → ℕ × ℕ → ℕ × ℕ → (ℕ × ℕ → Color))
    (c : Canvas) (t : ℕ × ℕ) :
    (Canvas.thumbnailFn resample c t).height =
      (thumbnailSize c.width c.height t.1 t.2).2 := by
  simp only [Canvas.thumbnailFn]
  by_cases hs : thumbnailSize c.width c.height t.1 t.2 = (c.width, c.height)
  · rw [if_pos hs, hs]
  · rw [if_neg hs]

/-- A pixel outside the pasted rectangle is untouched by Image.paste. -/
theorem paste_pix_outside (base im mask : Canvas) (box : ℤ × ℤ) (p : ℕ × ℕ)
    (wI hI : ℕ) (hwI : im.width = wI) (hhI : im.height = hI)
    (hout : ¬ (box.1 ≤ (p.1 : ℤ) ∧ (p.1 : ℤ) < box.1 + wI ∧
               box.2 ≤ (p.2 : ℤ) ∧ (p.2 : ℤ) < box.2 + hI)) :
    (Canvas.paste base im box mask).pix p = base.pix p := by
  subst hwI
  subst hhI
  have hcond : ¬ (0 ≤ (p.1 : ℤ) - box.1 ∧ (p.1 : ℤ) - box.1 < (im.width : ℤ) ∧
      0 ≤ (p.2 : ℤ) - box.2 ∧ (p.2 : ℤ) - box.2 < (im.height : ℤ)) := by
    intro hc
    obtain ⟨c1, c2, c3, c4⟩ := hc
    exact hout ⟨by omega, by omega, by omega, by omega⟩
  simp only [Canvas.paste]
  rw [if_neg hcond]

/-- When the requested logo width does not exceed the logo's own width, the
early-return test of thumbnail applies: the logo keeps its original size. -/
theorem defaultLogoSize_of_ge (w0 h0 lw : ℕ) (hw0 : 0 < w0)
    (hge : w0 ≤ lw) : defaultLogoSize w0 h0 lw = (w0, h0) := by
  unfold defaultLogoSize defaultLogoTarget thumbnailSize
  have hmul : h0 * w0 ≤ lw * h0 := by
    calc h0 * w0 = w0 * h0 := mul_comm h0 w0
      _ ≤ lw * h0 := mul_le_mul_right' hge h0
  have hty : h0 ≤ lw * h0 / w0 + 1 :=
    Nat.le_succ_of_le ((Nat.le_div_iff_mul_le hw0).2 hmul)
  rw [if_pos ⟨hge, hty⟩]

/-- When the requested logo width is strictly below the logo's own width,
thumbnail lands in its width-binding branch: the result is exactly that wide
and thumbHeightElse tall. -/
theorem defaultLogoSize_of_lt (w0 h0 lw : ℕ) (hw0 : 0 < w0)
    (hlt : lw < w0) :
    defaultLogoSize w0 h0 lw = (lw, thumbHeightElse w0 h0 lw) := by
  unfold defaultLogoSize defaultLogoTarget thumbnailSize
  have h1 : ¬ (w0 ≤ lw ∧ h0 ≤ lw * h0 / w0 + 1) := by
    intro hcon
    exact absurd hcon.1 (not_le.2 hlt)
  have h2 : ¬ ((lw * h0 / w0 + 1) * w0 ≤ lw * h0) :=
    not_le.2 (lt_div_succ_mul (lw * h0) w0 hw0)
  rw [if_neg h1, if_neg h2]

/-- C3 counterexample: get_asset returns the joined path even when no such
file exists (here: an empty filesystem), and never raises AssetNotFound; the
claimed existence check is absent from the source. -/
theorem get_asset_no_check_cex :
    get_asset false "" "proj" "assets/logo_ugent.png" =
      Except.ok ("proj" ++ "/" ++ "assets/logo_ugent.png") ∧
    ("proj" ++ "/" ++ "assets/logo_ugent.png") ∉ ([] : List String) ∧
    get_asset false "" "proj" "assets/logo_ugent.png" ≠
      Except.error AssetError.assetNotFound := by
  refine ⟨rfl, by simp, by simp [get_asset]⟩

/-- C3 (amended): get_asset always succeeds, returning the base directory
(the PyInstaller temp dir when frozen, the package directory otherwise)
joined with the relative path; it performs no existence check and never
fails with AssetNotFound — a missing asset only surfaces later, when the
returned path is opened. -/
theorem get_asset_total (frozen : Bool)
    (meipassDir sourceBase relative_path : String) :
    get_asset frozen meipassDir sourceBase relative_path =
      Except.ok ((if frozen then meipassDir else sourceBase) ++ "/" ++
        relative_path) := by
  cases frozen <;> rfl

/-- C4: for positive canvas and target dimensions, resize_image with
keep-aspect never increases either dimension and the output aspect ratio
differs from the source by less than one pixel of rounding error (the
cross-multiplied difference is below the larger source dimension); without
keep-aspect the output is exactly the target size.  Holds for both values
of in_place. -/
theorem resize_image_spec
    (resample : (ℕ × ℕ → Color) → ℕ × ℕ → ℕ × ℕ → (ℕ × ℕ → Color))
    (c : Canvas) (W H : ℕ) (ip : Bool)
    (hcw : 0 < c.width) (hch : 0 < c.height) (hW : 0 < W) (hH : 0 < H) :
    ((resize_image resample c (W, H) true ip).1.width ≤ c.width ∧
     (resize_image resample c (W, H) true ip).1.height ≤ c.height ∧
     (((resize_image resample c (W, H) true ip).1.width * c.height : ℤ) -
      ((resize_image resample c (W, H) true ip).1.height * c.width : ℤ)).natAbs <
        max c.width c.height) ∧
    (resize_image resample c (W, H) false ip).1.width = W ∧
    (resize_image resample c (W, H) false ip).1.height = H := by
  have hred : (resize_image resample c (W, H) true ip).1 =
      Canvas.thumbnailFn resample c (W, H) := by
    cases ip <;> rfl
  obtain ⟨h1, h2, h3, h4, h5⟩ :=
    thumbnailSize_spec c.width c.height W H hcw hch hW hH
  refine ⟨⟨?_, ?_, ?_⟩, ?_, ?_⟩
  · rw [hred, thumbnailFn_width]; exact h3
  · rw [hred, thumbnailFn_height]; exact h4
  · rw [hred, thumbnailFn_width, thumbnailFn_height]; exact h5
  · cases ip <;> rfl
  · cases ip <;> rfl

/-- C4 witness: a concrete 4 by 3 canvas shrunk towards (2, 2). -/
theorem resize_image_spec_witness :
    (0 < testCanvas.width ∧ 0 < testCanvas.height ∧
      0 < (2 : ℕ) ∧ 0 < (2 : ℕ)) ∧
    (((resize_image idResample testCanvas (2, 2) true false).1.width ≤
        testCanvas.width ∧
      (resize_image idResample testCanvas (2, 2) true false).1.height ≤
        testCanvas.height ∧
      (((resize_image idResample testCanvas (2, 2) true false).1.width *
          testCanvas.height : ℤ) -
       ((resize_image idResample testCanvas (2, 2) true false).1.height *
          testCanvas.width : ℤ)).natAbs < max testCanvas.width testCanvas.height) ∧
     (resize_image idResample testCanvas (2, 2) false false).1.width = 2 ∧
     (resize_image idResample testCanvas (2, 2) false false).1.height = 2) :=
  ⟨⟨by decide, by decide, by decide, by decide⟩,
   resize_image_spec idResample testCanvas 2 2 false
     (by decide) (by decide) (by decide) (by decide)⟩

/-- C7: resize_image without in_place and add_text_to_image
(unconditionally) leave the caller's canvas object with exactly its original
value — pixels, size and mode — after the call; each builds its result from
a copy. -/
theorem resize_addtext_no_mutation
    (resample : (ℕ × ℕ → Color) → ℕ × ℕ → ℕ × ℕ → (ℕ × ℕ → Color))
    (overlay : String → ℕ × ℕ → ℕ → String → ℕ × ℕ → Color → Option Color)
    (c : Canvas) (t : ℕ × ℕ) (ka : Bool) (txt : String) (pos : ℕ × ℕ)
    (sz : ℕ) (col : String) :
    (resize_image resample c t ka false).2 = c ∧
    (add_text_to_image overlay c txt pos sz col).2 = c := by
  constructor
  · cases ka <;> rfl
  · rfl

/-- C8: adding empty text yields exactly a direct copy of the input canvas,
whatever the position, size and color, and whatever the glyph rasterizer
does on nonempty text. -/
theorem add_text_empty_copy
    (overlay : String → ℕ × ℕ → ℕ → String → ℕ × ℕ → Color → Option Color)
    (c : Canvas) (pos : ℕ × ℕ) (sz : ℕ) (col : String) :
    (add_text_to_image overlay c "" pos sz col).1 = Canvas.copy c := rfl

/-- C5: on a non-Windows platform, set_background raises
UnsupportedPlatform before any file I/O: no temporary file is created, the
filesystem is untouched, and neither the OS call nor any unlink runs —
for a canvas source and for a path source alike. -/
theorem set_background_unsupported (plat : String) (osOk : Bool)
    (tmpName : String) (unlinkOk : Bool) (resolvePath : String → String)
    (fs : List String) (source : WallpaperSource)
    (hplat : plat ≠ "Windows") :
    (set_background plat osOk tmpName unlinkOk resolvePath fs source).outcome =
      Except.error SBError.unsupportedPlatform ∧
    (set_background plat osOk tmpName unlinkOk resolvePath fs source).tmpCreated =
      false ∧
    (set_background plat osOk tmpName unlinkOk resolvePath fs source).fs = fs ∧
    (set_background plat osOk tmpName unlinkOk resolvePath fs source).osCalls = 0 ∧
    (set_background plat osOk tmpName unlinkOk resolvePath fs source).unlinkCalls =
      0 := by
  simp only [set_background, if_pos hplat]
  refine ⟨?_, ?_, ?_, ?_, ?_⟩ <;> trivial

/-- C5 witness: a concrete call on Linux with a path source. -/
theorem set_background_unsupported_witness :
    (("Linux" : String) ≠ "Windows") ∧
    ((set_background "Linux" true "t.bmp" true (fun s => s) []
        (WallpaperSource.fromPath "w.png")).outcome =
      Except.error SBError.unsupportedPlatform ∧
     (set_background "Linux" true "t.bmp" true (fun s => s) []
        (WallpaperSource.fromPath "w.png")).tmpCreated = false ∧
     (set_background "Linux" true "t.bmp" true (fun s => s) []
        (WallpaperSource.fromPath "w.png")).fs = [] ∧
     (set_background "Linux" true "t.bmp" true (fun s => s) []
        (WallpaperSource.fromPath "w.png")).osCalls = 0 ∧
     (set_background "Linux" true "t.bmp" true (fun s => s) []
        (WallpaperSource.fromPath "w.png")).unlinkCalls = 0) :=
  ⟨by decide,
   set_background_unsupported "Linux" true "t.bmp" true (fun s => s) []
     (WallpaperSource.fromPath "w.png") (by decide)⟩

/-- C6: on Windows with a path source whose expanded and normalized path
does not reference an existing file, set_background raises FileNotFound,
performs no OS wallpaper call, creates no temporary file and leaves the
filesystem unchanged. -/
theorem set_background_missing_file (osOk : Bool) (tmpName : String)
    (unlinkOk : Bool) (resolvePath : String → String) (fs : List String)
    (p : String) (hmiss : resolvePath p ∉ fs) :
    (set_background "Windows" osOk tmpName unlinkOk resolvePath fs
        (WallpaperSource.fromPath p)).outcome =
      Except.error SBError.fileNotFound ∧
    (set_background "Windows" osOk tmpName unlinkOk resolvePath fs
        (WallpaperSource.fromPath p)).osCalls = 0 ∧
    (set_background "Windows" osOk tmpName unlinkOk resolvePath fs
        (WallpaperSource.fromPath p)).fs = fs ∧
    (set_background "Windows" osOk tmpName unlinkOk resolvePath fs
        (WallpaperSource.fromPath p)).tmpCreated = false ∧
    (set_background "Windows" osOk tmpName unlinkOk resolvePath fs
        (WallpaperSource.fromPath p)).unlinkCalls = 0 := by
  have hplat : ¬ (("Windows" : String) ≠ "Windows") := by simp
  simp only [set_background, if_neg hplat]
  rw [if_neg hmiss]
  exact ⟨rfl, rfl, rfl, rfl, rfl⟩

/-- C6 witness: a concrete missing path on an empty filesystem. -/
theorem set_background_missing_file_witness :
    ("missing.png" ∉ ([] : List String)) ∧
    ((set_background "Windows" true "t.bmp" true (fun s => s) []
        (WallpaperSource.fromPath "missing.png")).outcome =
      Except.error SBError.fileNotFound ∧
     (set_background "Windows" true "t.bmp" true (fun s => s) []
        (WallpaperSource.fromPath "missing.png")).osCalls = 0 ∧
     (set_background "Windows" true "t.bmp" true (fun s => s) []
        (WallpaperSource.fromPath "missing.png")).fs = [] ∧
     (set_background "Windows" true "t.bmp" true (fun s => s) []
        (WallpaperSource.fromPath "missing.png")).tmpCreated = false ∧
     (set_background "Windows" true "t.bmp" true (fun s => s) []
        (WallpaperSource.fromPath "missing.png")).unlinkCalls = 0) :=
  ⟨by decide,
   set_background_missing_file true "t.bmp" true (fun s => s) [] "missing.png"
     (by decide)⟩

/-- C9: an install from an externally supplied path never deletes anything:
no unlink runs, no temporary file is created, the filesystem is returned
unchanged on every outcome, and on success the returned resolved path still
exists. -/
theorem set_background_path_untouched (plat : String) (osOk : Bool)
    (tmpName : String) (unlinkOk : Bool) (resolvePath : String → String)
    (fs : List String) (p : String) :
    (set_background plat osOk tmpName unlinkOk resolvePath fs
        (WallpaperSource.fromPath p)).fs = fs ∧
    (set_background plat osOk tmpName unlinkOk resolvePath fs
        (WallpaperSource.fromPath p)).unlinkCalls = 0 ∧
    (set_background plat osOk tmpName unlinkOk resolvePath fs
        (WallpaperSource.fromPath p)).tmpCreated = false ∧
    ((set_background plat osOk tmpName unlinkOk resolvePath fs
        (WallpaperSource.fromPath p)).outcome = Except.ok (resolvePath p) →
      resolvePath p ∈
        (set_background plat osOk tmpName unlinkOk resolvePath fs
          (WallpaperSource.fromPath p)).fs) := by
  by_cases hplat : plat ≠ "Windows"
  · simp only [set_background, if_pos hplat]
    refine ⟨by trivial, by trivial, by trivial, ?_⟩
    intro hcon
    exact absurd hcon (by simp)
  · rw [not_not] at hplat
    subst hplat
    have hplat2 : ¬ (("Windows" : String) ≠ "Windows") := by simp
    by_cases hmem : resolvePath p ∈ fs
    · cases osOk
      · simp only [set_background, if_neg hplat2, if_pos hmem]
        refine ⟨by trivial, by trivial, by trivial, ?_⟩
        intro hcon
        exact absurd hcon (by simp)
      · simp only [set_background, if_neg hplat2, if_pos hmem]
        exact ⟨by trivial, by trivial, by trivial, fun _ => hmem⟩
    · simp only [set_background, if_neg hplat2, if_neg hmem]
      refine ⟨by trivial, by trivial, by trivial, ?_⟩
      intro hcon
      exact absurd hcon (by simp)

/-- C9 witness: a concrete successful install from an existing path. -/
theorem set_background_path_untouched_witness :
    (set_background "Windows" true "t.bmp" true (fun s => s) ["w.png"]
        (WallpaperSource.fromPath "w.png")).fs = ["w.png"] ∧
    (set_background "Windows" true "t.bmp" true (fun s => s) ["w.png"]
        (WallpaperSource.fromPath "w.png")).unlinkCalls = 0 ∧
    (set_background "Windows" true "t.bmp" true (fun s => s) ["w.png"]
        (WallpaperSource.fromPath "w.png")).tmpCreated = false ∧
    ((set_background "Windows" true "t.bmp" true (fun s => s) ["w.png"]
        (WallpaperSource.fromPath "w.png")).outcome = Except.ok "w.png" →
      "w.png" ∈
        (set_background "Windows" true "t.bmp" true (fun s => s) ["w.png"]
          (WallpaperSource.fromPath "w.png")).fs) :=
  set_background_path_untouched "Windows" true "t.bmp" true (fun s => s)
    ["w.png"] "w.png"

/-- C10: an install from an in-memory canvas never mutates the caller's
canvas — its value, including mode and alpha, is intact after the call on
the success path, on the InstallFailed path and on the UnsupportedPlatform
path — because the RGB conversion runs on a fresh image; on Windows the
value written to the temporary file is that converted copy. -/
theorem set_background_canvas_unmutated (plat : String) (osOk : Bool)
    (tmpName : String) (unlinkOk : Bool) (resolvePath : String → String)
    (fs : List String) (img : Canvas) :
    (set_background plat osOk tmpName unlinkOk resolvePath fs
        (WallpaperSource.fromCanvas img)).canvasAfter = some img ∧
    (set_background plat osOk tmpName unlinkOk resolvePath fs
        (WallpaperSource.fromCanvas img)).written =
      (if plat = "Windows" then some img.convertRGB else none) := by
  by_cases hplat : plat = "Windows"
  · subst hplat
    have hplat2 : ¬ (("Windows" : String) ≠ "Windows") := by simp
    cases osOk
    · simp only [set_background, if_neg hplat2, if_pos rfl]
      refine ⟨?_, ?_⟩ <;> trivial
    · simp only [set_background, if_neg hplat2, if_pos rfl]
      refine ⟨?_, ?_⟩ <;> trivial
  · have hplat2 : plat ≠ "Windows" := hplat
    simp only [set_background, if_pos hplat2, if_neg hplat]
    refine ⟨?_, ?_⟩ <;> trivial

/-- C1 counterexample: on Windows with a canvas source, when the OS call
fails the install raises InstallFailed with zero unlink calls and the
temporary file still on disk — the claimed cleanup on the failure path does
not happen, because the source raises before the unlink. -/
theorem set_background_cleanup_cex :
    (set_background "Windows" false "t.bmp" true (fun s => s) []
        (WallpaperSource.fromCanvas testCanvas)).outcome =
      Except.error SBError.installFailed ∧
    (set_background "Windows" false "t.bmp" true (fun s => s) []
        (WallpaperSource.fromCanvas testCanvas)).unlinkCalls = 0 ∧
    (set_background "Windows" false "t.bmp" true (fun s => s) []
        (WallpaperSource.fromCanvas testCanvas)).fs = ["t.bmp"] :=
  ⟨rfl, rfl, rfl⟩

/-- C1 (amended): for a canvas source on Windows, the temporary file is
unlinked exactly once when the OS call succeeds — and an unlink failure is
swallowed, the install still returning the temp path — but when the OS call
fails, InstallFailed is raised before the cleanup, no unlink runs and the
temporary file is left behind. -/
theorem set_background_canvas_cleanup (osOk : Bool) (tmpName : String)
    (unlinkOk : Bool) (resolvePath : String → String) (fs : List String)
    (img : Canvas) :
    (set_background "Windows" osOk tmpName unlinkOk resolvePath fs
        (WallpaperSource.fromCanvas img)).outcome =
      (if osOk then Except.ok tmpName
       else Except.error SBError.installFailed) ∧
    (set_background "Windows" osOk tmpName unlinkOk resolvePath fs
        (WallpaperSource.fromCanvas img)).unlinkCalls =
      (if osOk then 1 else 0) ∧
    (set_background "Windows" osOk tmpName unlinkOk resolvePath fs
        (WallpaperSource.fromCanvas img)).fs =
      (if osOk then
        (if unlinkOk then (tmpName :: fs).erase tmpName else tmpName :: fs)
       else tmpName :: fs) := by
  cases osOk <;> cases unlinkOk <;> exact ⟨rfl, rfl, rfl⟩

/-- C2 counterexample: for a 300 by 100 logo and logo width 100 the exact
proportional height is 100/3, whose round-up is 34, but the thumbnail call
inside create_default_background produces height 33 — the floor, which is
closer in aspect ratio — so the height is not rounded up to the nearest
pixel. -/
theorem defaultLogoSize_not_rounded_up :
    defaultLogoSize 300 100 100 = (100, 33) ∧
    (Canvas.thumbnailFn idResample cexLogo
      (defaultLogoTarget 300 100 100)).height = 33 ∧
    (100 * 100 + 300 - 1) / 300 = 34 := by
  refine ⟨by decide, by decide, by decide⟩

/-- C2 (amended): for positive screen size, margin and logo width, and a
logo with positive dimensions, create_default_background returns a canvas of
exactly the screen size whose every pixel outside the pasted logo rectangle
is the brand color 1E64C8; the logo rectangle's top-left corner is at
(width - logoWidth - margin, margin), i.e. offset margin from the top and —
whenever the resized width equals logoWidth — margin from the right edge;
the logo is never upscaled (it keeps its own size when logoWidth is at least
its width), otherwise it is resized to width exactly logoWidth with height
within one pixel of the exact proportional height, rounded to whichever of
floor and ceiling best preserves the aspect ratio — not always up. -/
theorem create_default_background_spec
    (resample : (ℕ × ℕ → Color) → ℕ × ℕ → ℕ × ℕ → (ℕ × ℕ → Color))
    (logo : Canvas) (W H m lw : ℕ)
    (hW : 0 < W) (hH : 0 < H) (hw0 : 0 < logo.width) (hh0 : 0 < logo.height)
    (hlw : 0 < lw) :
    (create_default_background resample logo (W, H) m lw).width = W ∧
    (create_default_background resample logo (W, H) m lw).height = H ∧
    (∀ p : ℕ × ℕ,
      ¬ ((W : ℤ) - lw - m ≤ (p.1 : ℤ) ∧
         (p.1 : ℤ) < (W : ℤ) - lw - m +
           ((defaultLogoSize logo.width logo.height lw).1 : ℤ) ∧
         (m : ℤ) ≤ (p.2 : ℤ) ∧
         (p.2 : ℤ) < (m : ℤ) +
           ((defaultLogoSize logo.width logo.height lw).2 : ℤ)) →
      (create_default_background resample logo (W, H) m lw).pix p =
        brandColor) ∧
    (lw ≤ logo.width → (defaultLogoSize logo.width logo.height lw).1 = lw) ∧
    (logo.width ≤ lw →
      defaultLogoSize logo.width logo.height lw = (logo.width, logo.height)) ∧
    (lw < logo.width →
      (((defaultLogoSize logo.width logo.height lw).2 * logo.width : ℤ) -
        (lw * logo.height : ℤ)).natAbs < logo.width) := by
  refine ⟨rfl, rfl, ?_, ?_, ?_, ?_⟩
  · intro p hout
    have hW2 : (Canvas.thumbnailFn resample logo
        (defaultLogoTarget logo.width logo.height lw)).width =
        (defaultLogoSize logo.width logo.height lw).1 :=
      thumbnailFn_width resample logo
        (defaultLogoTarget logo.width logo.height lw)
    have hH2 : (Canvas.thumbnailFn resample logo
        (defaultLogoTarget logo.width logo.height lw)).height =
        (defaultLogoSize logo.width logo.height lw).2 :=
      thumbnailFn_height resample logo
        (defaultLogoTarget logo.width logo.height lw)
    have heq := paste_pix_outside (Canvas.new (W, H) brandColor)
      (Canvas.thumbnailFn resample logo
        (defaultLogoTarget logo.width logo.height lw))
      (Canvas.thumbnailFn resample logo
        (defaultLogoTarget logo.width logo.height lw))
      ((W : ℤ) - lw - m, (m : ℤ)) p
      (defaultLogoSize logo.width logo.height lw).1
      (defaultLogoSize logo.width logo.height lw).2
      hW2 hH2 hout
    calc (create_default_background resample logo (W, H) m lw).pix p
        = (Canvas.new (W, H) brandColor).pix p := heq
      _ = brandColor := rfl
  · intro hle
    rcases lt_or_eq_of_le hle with hlt | heq2
    · rw [defaultLogoSize_of_lt logo.width logo.height lw hw0 hlt]
    · rw [defaultLogoSize_of_ge logo.width logo.height lw hw0
        (le_of_eq heq2.symm)]
      exact heq2.symm
  · intro hge
    exact defaultLogoSize_of_ge logo.width logo.height lw hw0 hge
  · intro hlt
    rw [defaultLogoSize_of_lt logo.width logo.height lw hw0 hlt]
    obtain ⟨hp, hb1, hb2⟩ := roundAspect_bounds (lw * logo.height) logo.width
      (thumbHeightElse logo.width logo.height lw) hw0
      (Nat.mul_pos hlw hh0) (thumbHeightElse_cases logo.width logo.height lw)
    have habs := natAbs_sub_lt
      (thumbHeightElse logo.width logo.height lw * logo.width)
      (lw * logo.height) logo.width hb1 hb2
    push_cast at habs
    exact habs

/-- C2 witness: a concrete 2 by 2 logo on a 5 by 4 screen with margin 1 and
logo width 1. -/
theorem create_default_background_spec_witness :
    (0 < (5 : ℕ) ∧ 0 < (4 : ℕ) ∧ 0 < testLogo.width ∧ 0 < testLogo.height ∧
      0 < (1 : ℕ)) ∧
    ((create_default_background idResample testLogo (5, 4) 1 1).width = 5 ∧
     (create_default_background idResample testLogo (5, 4) 1 1).height = 4 ∧
     (∀ p : ℕ × ℕ,
       ¬ ((5 : ℤ) - 1 - 1 ≤ (p.1 : ℤ) ∧
          (p.1 : ℤ) < (5 : ℤ) - 1 - 1 +
            ((defaultLogoSize testLogo.width testLogo.height 1).1 : ℤ) ∧
          (1 : ℤ) ≤ (p.2 : ℤ) ∧
          (p.2 : ℤ) < (1 : ℤ) +
            ((defaultLogoSize testLogo.width testLogo.height 1).2 : ℤ)) →
       (create_default_background idResample testLogo (5, 4) 1 1).pix p =
         brandColor) ∧
     ((1 : ℕ) ≤ testLogo.width →
       (defaultLogoSize testLogo.width testLogo.height 1).1 = 1) ∧
     (testLogo.width ≤ 1 →
       defaultLogoSize testLogo.width testLogo.height 1 =
         (testLogo.width, testLogo.height)) ∧
     ((1 : ℕ) < testLogo.width →
       (((defaultLogoSize testLogo.width testLogo.height 1).2 *
           testLogo.width : ℤ) - ((1 : ℕ) * testLogo.height : ℤ)).natAbs <
         testLogo.width)) :=
  ⟨⟨by decide, by decide, by decide, by decide, by decide⟩,
   create_default_background_spec idResample testLogo 5 4 1 1
     (by decide) (by decide) (by decide) (by decide) (by decide)⟩
